import Mathlib

/-!
Shallow embedding of the fernglas RIB store and route-distinguisher codec
(`src/route_distinguisher.rs`, `src/store.rs`, `src/store_impl.rs`), together
with theorems settling the frozen claims about the natural-language
specification.  Machine integers are modelled as `Nat` with explicit bounds;
Rust `String` values are modelled as `List Char`; fallible operations return
`Option` or `Except`; a Rust panic (`unwrap` on `None`/`Err`) is modelled as
the whole operation returning `none`.
-/

set_option maxHeartbeats 1000000

namespace Fernglas

/-! ## Decimal digit rendering and parsing (models of Rust `Display`/`FromStr`
for unsigned integers, used by the route-distinguisher text codec) -/

/-- The decimal digit character for a value `0..9` (other inputs map to `'*'`,
which never occurs for in-range arguments). -/
def digitChar : Nat → Char
  | 0 => '0'
  | 1 => '1'
  | 2 => '2'
  | 3 => '3'
  | 4 => '4'
  | 5 => '5'
  | 6 => '6'
  | 7 => '7'
  | 8 => '8'
  | 9 => '9'
  | _ => '*'

/-- Value of a decimal digit character, `none` for non-digits. -/
def digitVal? (c : Char) : Option Nat :=
  if '0' ≤ c ∧ c ≤ '9' then some (c.toNat - '0'.toNat) else none

/-- Little-endian digit list of `n` (empty for `0`). -/
def natToDigitsRev : Nat → List Char
  | 0 => []
  | n + 1 => digitChar ((n + 1) % 10) :: natToDigitsRev ((n + 1) / 10)
decreasing_by exact Nat.div_lt_self (Nat.succ_pos n) (by omega)

/-- Decimal rendering of a natural number, without leading zeros
(model of Rust's `Display` for unsigned integers). -/
def natRepr (n : Nat) : List Char :=
  if n = 0 then ['0'] else (natToDigitsRev n).reverse

/-- Accumulating decimal parser over a digit list; fails on any non-digit. -/
def parseDigitsAux : List Char → Nat → Option Nat
  | [], acc => some acc
  | c :: cs, acc =>
    match digitVal? c with
    | some d => parseDigitsAux cs (acc * 10 + d)
    | none => none

/-- Parse a non-empty all-digit string as a natural number. -/
def parseNatDigits (cs : List Char) : Option Nat :=
  if cs.isEmpty then none else parseDigitsAux cs 0

/-- Bound check performed by Rust `u32::from_str` after reading the digits. -/
def boundU32 (r : Option Nat) : Option Nat :=
  match r with
  | some n => if n < 2 ^ 32 then some n else none
  | none => none

/-- Model of Rust `u32::from_str`: optional leading `'+'`, one or more decimal
digits, value below `2 ^ 32`. -/
def parseU32 (cs : List Char) : Option Nat :=
  boundU32 (parseNatDigits (if cs.head? = some '+' then cs.tail else cs))

/-- Model of Rust `str::split_once`: splits at the first occurrence of `sep`. -/
def splitOnce (sep : Char) : List Char → Option (List Char × List Char)
  | [] => none
  | c :: cs =>
    if c = sep then some ([], cs)
    else (splitOnce sep cs).map (fun p => (c :: p.1, p.2))

/-- Split a character list on every occurrence of `sep`. -/
def splitChar (sep : Char) : List Char → List (List Char)
  | [] => [[]]
  | c :: cs =>
    if c = sep then [] :: splitChar sep cs
    else
      match splitChar sep cs with
      | [] => [[c]]
      | p :: ps => (c :: p) :: ps

/-- Bound check performed on a single IPv4 octet. -/
def boundOctet (r : Option Nat) : Option Nat :=
  match r with
  | some n => if n ≤ 255 then some n else none
  | none => none

/-- Model of Rust `Ipv4Addr::from_str` for a single octet: no empty part,
no leading zero (except `"0"` itself), decimal value at most `255`. -/
def parseOctet (cs : List Char) : Option Nat :=
  if cs = ['0'] then some 0
  else if cs.head? = some '0' then none
  else boundOctet (parseNatDigits cs)

/-- Assemble the numeric value of the four parts of a dotted quad. -/
def parseIpv4Quad (a b c d : List Char) : Option Nat :=
  (parseOctet a).bind fun va =>
    (parseOctet b).bind fun vb =>
      (parseOctet c).bind fun vc =>
        (parseOctet d).map fun vd => ((va * 256 + vb) * 256 + vc) * 256 + vd

/-- Model of Rust `Ipv4Addr::from_str`: exactly four dot-separated octets,
returned as the 32-bit numeric value of the address. -/
def parseIpv4 (cs : List Char) : Option Nat :=
  match splitChar '.' cs with
  | [a, b, c, d] => parseIpv4Quad a b c d
  | _ => none

/-- Dotted-quad rendering of a 32-bit IPv4 address value
(model of Rust's `Display for Ipv4Addr`). -/
def ipRepr (ip : Nat) : List Char :=
  natRepr (ip / 2 ^ 24) ++ '.' ::
    (natRepr (ip / 2 ^ 16 % 256) ++ '.' ::
      (natRepr (ip / 2 ^ 8 % 256) ++ '.' :: natRepr (ip % 256)))

/-! ## Route distinguisher codec (`src/route_distinguisher.rs`) -/

/-- `RouteDistinguisher` from `src/route_distinguisher.rs`.  Field widths of
the Rust type (`u16`/`u32`, `Ipv4Addr` as its 32-bit value) are captured by
`RouteDistinguisher.wf`. -/
inductive RouteDistinguisher
  | Default
  | Type0 (asn : Nat) (value : Nat)
  | Type1 (ip : Nat) (value : Nat)
  | Type2 (asn : Nat) (value : Nat)
deriving DecidableEq, Repr

/-- `RouteDistinguisher::is_default`. -/
def RouteDistinguisher.is_default : RouteDistinguisher → Bool
  | .Default => true
  | _ => false

/-- Field bounds imposed by the Rust field types
(`Type0 {asn: u16, value: u32}`, `Type1 {ip: Ipv4Addr, value: u16}`,
`Type2 {asn: u32, value: u16}`). -/
def RouteDistinguisher.wf : RouteDistinguisher → Prop
  | .Default => True
  | .Type0 asn value => asn < 2 ^ 16 ∧ value < 2 ^ 32
  | .Type1 ip value => ip < 2 ^ 32 ∧ value < 2 ^ 16
  | .Type2 asn value => asn < 2 ^ 32 ∧ value < 2 ^ 16

instance : DecidablePred RouteDistinguisher.wf := by
  intro rd
  cases rd <;> simp [RouteDistinguisher.wf] <;> infer_instance

/-- The `EXPECT_MESSAGE` constant of `src/route_distinguisher.rs`: the fixed
descriptive message carried by every text-parse failure. -/
def expectMessage : String :=
  "expecting a route distinguisher in one of the following formats:\nType0: \"\x7b2-byte ASN\x7d:\x7b4-byte value\x7d\" | u16:u32  (example: 2222:1000000)\nType1: \"\x7b4-byte IP\x7d:\x7b2-byte value\x7d\"  | ipv4:u16 (example: \"1.2.3.4:555\")\nType2: \"\x7b4-byte ASN\x7d:\x7b2-byte value\x7d\" | u32:u16  (example: \"1000000:3232\")"

/-- `Display for RouteDistinguisher` (`to_string`), producing the canonical
text form. -/
def toText : RouteDistinguisher → List Char
  | .Default => ['0', ':', '0']
  | .Type0 asn value => natRepr asn ++ ':' :: natRepr value
  | .Type1 ip value => ipRepr ip ++ ':' :: natRepr value
  | .Type2 asn value => natRepr asn ++ ':' :: natRepr value

/-- `FromStr for RouteDistinguisher` (`src/route_distinguisher.rs`, lines
83-121), translated clause for clause. -/
def fromStr (s : List Char) : Except String RouteDistinguisher :=
  if s = ['0', ':', '0'] then .ok .Default
  else
    match splitOnce ':' s with
    | none => .error expectMessage
    | some (k, vs) =>
      match parseU32 vs with
      | none => .error expectMessage
      | some v =>
        match parseU32 k with
        | some asn =>
          if 65535 < asn ∧ v ≤ 65535 then .ok (.Type2 asn v)
          else if asn ≤ 65535 then .ok (.Type0 asn v)
          else .error expectMessage
        | none =>
          match parseIpv4 k with
          | some ip =>
            if v ≤ 65535 then .ok (.Type1 ip v) else .error expectMessage
          | none => .error expectMessage

/-- The 8-byte wire form of a route distinguisher (zettabgp `BgpRD`),
as two 32-bit big-endian words. -/
structure BgpRD where
  rdh : Nat
  rdl : Nat
deriving DecidableEq, Repr

/-- `TryFrom<BgpRD> for RouteDistinguisher` (`src/route_distinguisher.rs`,
lines 123-151): byte-level decode of the wire form, unknown type tag is an
error carrying the tag. -/
def tryFromBgpRD (r : BgpRD) : Except Nat RouteDistinguisher :=
  if r.rdh = 0 ∧ r.rdl = 0 then .ok .Default
  else
    match r.rdh / 2 ^ 24 % 256 * 256 + r.rdh / 2 ^ 16 % 256 with
    | 0 => .ok (.Type0 (r.rdh / 2 ^ 8 % 256 * 256 + r.rdh % 256) r.rdl)
    | 1 => .ok (.Type1
        (((r.rdh / 2 ^ 8 % 256 * 256 + r.rdh % 256) * 256 + r.rdl / 2 ^ 24 % 256) * 256
          + r.rdl / 2 ^ 16 % 256)
        (r.rdl / 2 ^ 8 % 256 * 256 + r.rdl % 256))
    | 2 => .ok (.Type2
        (((r.rdh / 2 ^ 8 % 256 * 256 + r.rdh % 256) * 256 + r.rdl / 2 ^ 24 % 256) * 256
          + r.rdl / 2 ^ 16 % 256)
        (r.rdl / 2 ^ 8 % 256 * 256 + r.rdl % 256))
    | e => .error e

/-- Wire decode as the spec states it (claim C6): type tag is the top 16 bits
of `high`; `Default` iff both words are zero; the three known types take their
fields from the stated bit ranges; an unknown tag is an error carrying it. -/
def rdDecodeSpec (r : BgpRD) : Except Nat RouteDistinguisher :=
  if r.rdh = 0 ∧ r.rdl = 0 then .ok .Default
  else
    match r.rdh / 2 ^ 16 with
    | 0 => .ok (.Type0 (r.rdh % 2 ^ 16) r.rdl)
    | 1 => .ok (.Type1 (r.rdh % 2 ^ 16 * 2 ^ 16 + r.rdl / 2 ^ 16) (r.rdl % 2 ^ 16))
    | 2 => .ok (.Type2 (r.rdh % 2 ^ 16 * 2 ^ 16 + r.rdl / 2 ^ 16) (r.rdl % 2 ^ 16))
    | e => .error e

/-- Text parse as the spec's selection rule states it (claim C7), followed
literally and in order: `"0:0"` is `Default`; split on the first `':'`, the
right side must parse as a `u32`; an integral left side above `65535` with
right at most `65535` is `Type2`; an integral left side at most `65535` is
`Type0`; an IPv4 left side with right at most `65535` is `Type1`; anything
else is the fixed format error. -/
def specSelectionRule (s : List Char) : Except String RouteDistinguisher :=
  if s = ['0', ':', '0'] then .ok .Default
  else
    match splitOnce ':' s with
    | none => .error expectMessage
    | some (k, vs) =>
      match parseU32 vs with
      | none => .error expectMessage
      | some v =>
        match parseU32 k with
        | some a =>
          if 65535 < a ∧ v ≤ 65535 then .ok (.Type2 a v)
          else if a ≤ 65535 then .ok (.Type0 a v)
          else
            match parseIpv4 k with
            | some ip =>
              if v ≤ 65535 then .ok (.Type1 ip v) else .error expectMessage
            | none => .error expectMessage
        | none =>
          match parseIpv4 k with
          | some ip =>
            if v ≤ 65535 then .ok (.Type1 ip v) else .error expectMessage
          | none => .error expectMessage

/-! ## Data model of the RIB store (`src/store.rs`) -/

/-- Socket addresses, modelled as opaque numeric identifiers. -/
abbrev SocketAddr := Nat

/-- `PathId` (`u32`). -/
abbrev PathId := Nat

/-- `RouterId` (`Ipv4Addr`), modelled as its 32-bit value. -/
abbrev RouterId := Nat

/-- IP addresses, as the numeric value tagged with the family. -/
inductive IpAddr
  | v4 (a : Nat)
  | v6 (a : Nat)
deriving DecidableEq, Repr

/-- IP networks (`ipnet::IpNet`): an address value and mask length, tagged
with the family. -/
inductive IpNet
  | v4 (addr : Nat) (len : Nat)
  | v6 (addr : Nat) (len : Nat)
deriving DecidableEq, Repr

/-- Mask length of a network. -/
def IpNet.len : IpNet → Nat
  | .v4 _ l => l
  | .v6 _ l => l

/-- `netContains a b` — `a` contains `b`: same family, `a` no longer than
`b`, and the first `a.len` address bits agree.  Modelled from the spec:
the `ipnet` containment predicate used by `table_impl.rs` (not under
`src/`). -/
def netContains : IpNet → IpNet → Bool
  | .v4 a1 l1, .v4 a2 l2 =>
    decide (l1 ≤ l2) && decide (a1 / 2 ^ (32 - l1) = a2 / 2 ^ (32 - l1))
  | .v6 a1 l1, .v6 a2 l2 =>
    decide (l1 ≤ l2) && decide (a1 / 2 ^ (128 - l1) = a2 / 2 ^ (128 - l1))
  | _, _ => false

/-- `RouteOrigin` from `src/store.rs`. -/
inductive RouteOrigin
  | Igp
  | Egp
  | Incomplete
deriving DecidableEq, Repr

/-- `RouteAttrs` from `src/store.rs`: a bag of independently optional
attributes. -/
structure RouteAttrs where
  origin : Option RouteOrigin := none
  as_path : Option (List Nat) := none
  communities : Option (List (Nat × Nat)) := none
  large_communities : Option (List (Nat × Nat × Nat)) := none
  med : Option Nat := none
  local_pref : Option Nat := none
  nexthop : Option IpAddr := none
deriving DecidableEq, Repr

/-- `SessionId` from `src/store.rs`. -/
structure SessionId where
  from_client : SocketAddr
  peer_address : IpAddr
deriving DecidableEq, Repr

/-- `RouteState` from `src/store.rs`. -/
inductive RouteState
  | Seen
  | Accepted
  | Active
  | Selected
deriving DecidableEq, Repr

/-- `TableType` from `src/store.rs`. -/
inductive TableType
  | PrePolicyAdjIn
  | PostPolicyAdjIn
  | LocRib (route_state : RouteState)
deriving DecidableEq, Repr

/-- `TableSelector` from `src/store.rs`. -/
structure TableSelector where
  route_distinguisher : RouteDistinguisher
  session_id : SessionId
  table_type : TableType
deriving DecidableEq, Repr

/-- `TableSelector::client_addr`. -/
def TableSelector.client_addr (t : TableSelector) : SocketAddr :=
  t.session_id.from_client

/-- `TableSelector::session_id` (the method returning `Option`, `none` for
`LocRib` tables). -/
def TableSelector.session_id_opt (t : TableSelector) : Option SessionId :=
  match t.table_type with
  | .LocRib _ => none
  | _ => some t.session_id

/-- `TableSelector::route_state`. -/
def TableSelector.route_state (t : TableSelector) : RouteState :=
  match t.table_type with
  | .LocRib rs => rs
  | .PostPolicyAdjIn => .Accepted
  | .PrePolicyAdjIn => .Seen

/-- `TableQuery` from `src/store.rs`. -/
inductive TableQuery
  | Table (sel : TableSelector)
  | Session (sid : SessionId)
  | Client (addr : SocketAddr)
  | Router (rid : RouterId)
deriving DecidableEq, Repr

/-- `NetQuery` from `src/store.rs`. -/
inductive NetQuery
  | Contains (net : IpNet)
  | MostSpecific (net : IpNet)
  | Exact (net : IpNet)
  | OrLonger (net : IpNet)
deriving DecidableEq, Repr

/-- `QueryLimits` from `src/store.rs`. -/
structure QueryLimits where
  max_results_per_table : Nat
  max_results : Nat
deriving DecidableEq, Repr

/-- `Default for QueryLimits`: 200 per table, 500 overall. -/
def QueryLimits.default : QueryLimits :=
  { max_results_per_table := 200, max_results := 500 }

/-- `Query` from `src/store.rs`; `as_path_regex` is the uncompiled regular
expression text. -/
structure Query where
  table_query : Option TableQuery
  net_query : NetQuery
  limits : Option QueryLimits
  as_path_regex : Option (List Char)
  route_distinguisher : RouteDistinguisher
deriving DecidableEq, Repr

/-- `Client` from `src/store.rs`. -/
structure Client where
  client_name : List Char
  router_id : RouterId
deriving DecidableEq, Repr

/-- `Session` from `src/store.rs` (currently an empty payload). -/
structure Session where
deriving DecidableEq, Repr

/-- `QueryResult` from `src/store.rs`. -/
structure QueryResult where
  state : RouteState
  net : IpNet
  table : TableSelector
  client : Client
  session : Option Session
  attrs : RouteAttrs
deriving DecidableEq, Repr

/-! ## Association-list maps (model of the `HashMap`s guarded by the store's
mutexes; keys are unique by construction of the operations) -/

/-- Lookup in an association list (model of `HashMap::get`). -/
def alookup [DecidableEq α] (l : List (α × β)) (k : α) : Option β :=
  (l.find? (fun p => decide (p.1 = k))).map (fun p => p.2)

/-- Remove a key (model of `HashMap::remove`). -/
def aremove [DecidableEq α] (l : List (α × β)) (k : α) : List (α × β) :=
  l.filter (fun p => decide (p.1 ≠ k))

/-- Insert or replace a key (model of `HashMap::insert`). -/
def ainsert [DecidableEq α] (l : List (α × β)) (k : α) (v : β) : List (α × β) :=
  (k, v) :: aremove l k

/-! ## RIB table and attribute cache.  `table_impl.rs` and
`compressed_attrs.rs` are not part of the sources under scrutiny, so both are
modelled from the spec (§4.2, §4.3). -/

/-- Modelled from the spec: `InMemoryTable` of `table_impl.rs` (not under
`src/`), §4.2 — a prefix-queryable index over `(path_id, prefix) ->`
attributes, scoped to one `TableSelector`.  Attribute-handle compression is
dropped: the spec requires queries to observe attributes field-for-field
equal to what was inserted. -/
structure InMemoryTable where
  entries : List ((PathId × IpNet) × RouteAttrs)
deriving DecidableEq, Repr

/-- A freshly created table (`InMemoryTable::new`). -/
def InMemoryTable.empty : InMemoryTable := { entries := [] }

/-- Modelled from the spec: `update_route` of §4.2 — insert or replace the
entry for `(path_id, prefix)`. -/
def tbl_update (t : InMemoryTable) (path_id : PathId) (net : IpNet)
    (attrs : RouteAttrs) : InMemoryTable :=
  { entries := ((path_id, net), attrs) ::
      t.entries.filter (fun e => decide (e.1 ≠ (path_id, net))) }

/-- Modelled from the spec: `withdraw_route` of §4.2 — remove the entry if
present, no-op otherwise. -/
def tbl_withdraw (t : InMemoryTable) (path_id : PathId) (net : IpNet) :
    InMemoryTable :=
  { entries := t.entries.filter (fun e => decide (e.1 ≠ (path_id, net))) }

/-- Modelled from the spec: the four structured query modes of §4.2 applied
to one entry list.  `Contains` keeps stored prefixes containing the queried
net, `Exact` keeps equal prefixes, `OrLonger` keeps the queried net and more
specifics, `MostSpecific` keeps the longest stored prefix containing the
net. -/
def tbl_select (nq : NetQuery) (entries : List ((PathId × IpNet) × RouteAttrs)) :
    List ((PathId × IpNet) × RouteAttrs) :=
  match nq with
  | .Contains n => entries.filter (fun e => netContains e.1.2 n)
  | .Exact n => entries.filter (fun e => decide (e.1.2 = n))
  | .OrLonger n => entries.filter (fun e => netContains n e.1.2)
  | .MostSpecific n =>
    let cs := entries.filter (fun e => netContains e.1.2 n)
    let m := cs.foldl (fun acc e => Nat.max acc e.1.2.len) 0
    cs.filter (fun e => decide (e.1.2.len = m))

/-- Modelled from the spec: `get_routes` of §4.2 — `none` returns all
entries, otherwise the selected entries, as `(prefix, path_id, attrs)`. -/
def tbl_get_routes (t : InMemoryTable) (nq : Option NetQuery) :
    List (IpNet × PathId × RouteAttrs) :=
  (match nq with
   | none => t.entries
   | some q => tbl_select q t.entries).map
    (fun e : (PathId × IpNet) × RouteAttrs => (e.1.2, e.1.1, e.2))

/-- Modelled from the spec: the attribute cache of `compressed_attrs.rs`
(not under `src/`), §4.3 — interned attribute sets. -/
abbrev Caches := List RouteAttrs

/-- Modelled from the spec: `remove_expired` of §4.3 — frees cache entries no
longer referenced by any live table entry. -/
def removeExpired (tables : List (TableSelector × InMemoryTable)) (c : Caches) :
    Caches :=
  c.filter (fun a => tables.any (fun kv => kv.2.entries.any (fun e => decide (e.2 = a))))

/-! ## The in-memory store (`src/store_impl.rs`) -/

/-- `InMemoryStore` from `src/store_impl.rs`: client registry, session
registry, table map and the shared attribute cache. -/
structure InMemoryStore where
  clients : List (SocketAddr × Client)
  sessions : List (SessionId × Session)
  tables : List (TableSelector × InMemoryTable)
  caches : Caches
deriving DecidableEq, Repr

/-- The store in its initial (`Default`) state. -/
def InMemoryStore.empty : InMemoryStore :=
  { clients := [], sessions := [], tables := [], caches := [] }

/-- `InMemoryStore::get_table` (`store_impl.rs` lines 58-65):
`entry(sel).or_insert(new)` — returns the existing table or inserts a fresh
empty one, also returning the possibly updated store. -/
def get_table (s : InMemoryStore) (sel : TableSelector) :
    InMemoryStore × InMemoryTable :=
  match alookup s.tables sel with
  | some t => (s, t)
  | none => ({ s with tables := ainsert s.tables sel InMemoryTable.empty },
      InMemoryTable.empty)

/-- `Store::update_route` for `InMemoryStore` (`store_impl.rs` lines
104-113): fetches (or creates) the table and inserts the entry; the interning
of the attributes into the shared cache is modelled by consing them onto the
cache list. -/
def update_route (s : InMemoryStore) (path_id : PathId) (net : IpNet)
    (sel : TableSelector) (attrs : RouteAttrs) : InMemoryStore :=
  let p := get_table s sel
  { p.1 with
    tables := ainsert p.1.tables sel (tbl_update p.2 path_id net attrs)
    caches := attrs :: p.1.caches }

/-- `Store::withdraw_route` for `InMemoryStore` (`store_impl.rs` lines
116-119). -/
def withdraw_route (s : InMemoryStore) (path_id : PathId) (net : IpNet)
    (sel : TableSelector) : InMemoryStore :=
  let p := get_table s sel
  { p.1 with tables := ainsert p.1.tables sel (tbl_withdraw p.2 path_id net) }

/-- `tables_for_router_fn` (`store_impl.rs` lines 43-57) applied to every
table (the `filter` of `get_tables_for_router`): the predicate calls
`clients.get(..).unwrap()`, so a table whose owning client is absent makes
the whole operation panic, modelled as `none`. -/
def tablesForRouter (s : InMemoryStore) (rid : RouterId) :
    Option (List (TableSelector × InMemoryTable)) :=
  s.tables.foldr
    (fun kv acc =>
      match acc with
      | none => none
      | some l =>
        match alookup s.clients kv.1.client_addr with
        | none => none
        | some cl => some (if cl.router_id = rid then kv :: l else l))
    (some [])

/-- One item of the per-table scan phase of `get_routes`:
`(TableSelector, IpNet, route attributes)`. -/
abbrev ScanItem := TableSelector × IpNet × RouteAttrs

/-- The compiled form of a regular expression is modelled by its match
function on character lists; compilation (`Regex::new`) is a parameter that
may fail. -/
abbrev RegexCompile := List Char → Option (List Char → Bool)

/-- The space-joined decimal rendering of an AS path
(`store_impl.rs` lines 141-145). -/
def joinAsPath (p : List Nat) : List Char :=
  (List.intersperse [' '] (p.map natRepr)).flatten

/-- The `nets_filter_fn` construction of `get_routes` (`store_impl.rs` lines
132-151): starts from the constant-true filter; with an `as_path_regex`
present, `Regex::new(..).unwrap()` panics (`none`) when compilation fails,
otherwise the filter rejects routes without an AS path and otherwise tests
the regex against the space-joined path. -/
def mkFilterFn (compile : RegexCompile) (re : Option (List Char)) :
    Option (ScanItem → Bool) :=
  let base : ScanItem → Bool := fun _ => true
  match re with
  | none => some base
  | some s =>
    match compile s with
    | none => none
    | some m =>
      some (fun item => base item &&
        (match item.2.2.as_path with
         | some p => m (joinAsPath p)
         | none => false))

/-- Candidate-table resolution of `get_routes` (`store_impl.rs` lines
122-128).  An explicit `Table` query creates the table if missing
(`get_table`); a `Router` query runs the panicking predicate
`tables_for_router_fn`. -/
def candidateTables (s : InMemoryStore) (tq : Option TableQuery) :
    Option (InMemoryStore × List (TableSelector × InMemoryTable)) :=
  match tq with
  | some (.Table sel) =>
    let p := get_table s sel
    some (p.1, [(sel, p.2)])
  | some (.Client a) =>
    some (s, s.tables.filter (fun kv => decide (kv.1.client_addr = a)))
  | some (.Router rid) => (tablesForRouter s rid).map (fun l => (s, l))
  | some (.Session sid) =>
    some (s, s.tables.filter (fun kv => decide (kv.1.session_id_opt = some sid)))
  | none => some (s, s.tables)

/-- `usize::MAX`, the effective bound when a supplied limit is `0`. -/
def usizeMax : Nat := 2 ^ 64 - 1

/-- The per-item enrichment stage of `get_routes` (`store_impl.rs` lines
190-214): a missing client drops the item (with a logged warning), a missing
session leaves the `session` field empty. -/
def enrich (s : InMemoryStore) (item : ScanItem) : Option QueryResult :=
  match alookup s.clients item.1.client_addr with
  | none => none
  | some cl =>
    some { state := item.1.route_state
           net := item.2.1
           table := item.1
           client := cl
           session := item.1.session_id_opt.bind (fun sid => alookup s.sessions sid)
           attrs := item.2.2 }

/-- `Store::get_routes` for `InMemoryStore` (`store_impl.rs` lines 121-217),
sequentially: resolve candidates, filter by route distinguisher, build the
AS-path filter (panicking on a bad regex), scan each candidate table,
truncate per table, enrich, truncate overall.  The result list stands for
the streamed results; `none` models a panic. -/
def get_routes (compile : RegexCompile) (s : InMemoryStore) (q : Query) :
    Option (List QueryResult × InMemoryStore) :=
  match candidateTables s q.table_query with
  | none => none
  | some (s1, cands0) =>
    let cands := cands0.filter
      (fun kv => decide (kv.1.route_distinguisher = q.route_distinguisher))
    match mkFilterFn compile q.as_path_regex with
    | none => none
    | some fFn =>
      let limits := q.limits.getD QueryLimits.default
      let maxResults := if limits.max_results = 0 then usizeMax
        else limits.max_results
      let maxRT := if limits.max_results_per_table = 0 then usizeMax
        else limits.max_results_per_table
      let scanned := cands.flatMap (fun kv =>
        ((((tbl_get_routes kv.2 (some q.net_query)).map
            (fun e => (kv.1, e.1, e.2.2))).filter fFn).take maxRT))
      some ((scanned.filterMap (enrich s1)).take maxResults, s1)

/-- `Store::get_routers` for `InMemoryStore` (`store_impl.rs` lines
219-221). -/
def get_routers (s : InMemoryStore) : List (SocketAddr × Client) :=
  s.clients

/-- One step of the `get_routing_instances` accumulation
(`hm.entry(..).or_insert(HashSet::new()).insert(rd)`): record the route
distinguisher of one table selector under its client address. -/
def instStep (hm : List (SocketAddr × List RouteDistinguisher))
    (sel : TableSelector) : List (SocketAddr × List RouteDistinguisher) :=
  let l := (alookup hm sel.session_id.from_client).getD []
  ainsert hm sel.session_id.from_client
    (if sel.route_distinguisher ∈ l then l else sel.route_distinguisher :: l)

/-- `Store::get_routing_instances` for `InMemoryStore` (`store_impl.rs`
lines 223-233): per client, the set of distinct route distinguishers over
all its tables. -/
def get_routing_instances (s : InMemoryStore) :
    List (SocketAddr × List RouteDistinguisher) :=
  s.tables.foldl (fun hm kv => instStep hm kv.1) []

/-- `Store::client_up` for `InMemoryStore` (`store_impl.rs` lines
235-245). -/
def client_up (s : InMemoryStore) (client_addr : SocketAddr)
    (client_data : Client) : InMemoryStore :=
  { s with clients := ainsert s.clients client_addr client_data }

/-- `Store::client_down` for `InMemoryStore` (`store_impl.rs` lines
246-257): remove the client, retain only sessions of other clients, retain
only tables of other clients, then reclaim the cache. -/
def client_down (s : InMemoryStore) (client_addr : SocketAddr) :
    InMemoryStore :=
  let clients := aremove s.clients client_addr
  let sessions := s.sessions.filter
    (fun kv => decide (kv.1.from_client ≠ client_addr))
  let tables := s.tables.filter
    (fun kv => decide (¬ kv.1.client_addr = client_addr))
  { clients := clients
    sessions := sessions
    tables := tables
    caches := removeExpired tables s.caches }

/-- `Store::session_up` for `InMemoryStore` (`store_impl.rs` lines
259-261). -/
def session_up (s : InMemoryStore) (session : SessionId)
    (new_state : Session) : InMemoryStore :=
  { s with sessions := ainsert s.sessions session new_state }

/-- `Store::session_down` for `InMemoryStore` (`store_impl.rs` lines
262-276). -/
def session_down (s : InMemoryStore) (session : SessionId)
    (new_state : Option Session) : InMemoryStore :=
  let sessions := match new_state with
    | some st => ainsert s.sessions session st
    | none => aremove s.sessions session
  let tables := s.tables.filter
    (fun kv => decide (¬ kv.1.session_id_opt = some session))
  { s with
    sessions := sessions
    tables := tables
    caches := removeExpired tables s.caches }

/-! ## BGP update translation (`src/store.rs`, `insert_bgp_update` and
`bgp_addrs_to_nets`) -/

/-- `BgpAddrV4` (zettabgp): IPv4 NLRI as address value and mask length. -/
structure BgpAddrV4 where
  addr : Nat
  pfxlen : Nat
deriving DecidableEq, Repr

/-- `BgpAddrV6` (zettabgp). -/
structure BgpAddrV6 where
  addr : Nat
  pfxlen : Nat
deriving DecidableEq, Repr

/-- zettabgp `WithPathId`: an NLRI together with its add-path identifier. -/
structure WithPathId (α : Type) where
  pathid : PathId
  nlri : α
deriving DecidableEq, Repr

/-- A VPN NLRI: route distinguisher plus prefix (zettabgp
`Labeled<WithRd<..>>`; the label stack is never read and is omitted). -/
structure WithRd (α : Type) where
  rd : BgpRD
  pfx : α
deriving DecidableEq, Repr

/-- The `BgpAddrs` variants read by `bgp_addrs_to_nets`; every other
address family is `UnknownFamily`. -/
inductive BgpAddrs
  | IPV4UP (l : List (WithPathId BgpAddrV4))
  | IPV6UP (l : List (WithPathId BgpAddrV6))
  | IPV4U (l : List BgpAddrV4)
  | IPV6U (l : List BgpAddrV6)
  | VPNV4U (l : List (WithRd BgpAddrV4))
  | VPNV6U (l : List (WithRd BgpAddrV6))
  | UnknownFamily
deriving DecidableEq, Repr

/-- zettabgp `BgpAddr`, as matched by the `MPUpdates` next-hop conversion. -/
inductive BgpAddr
  | V4 (a : Nat)
  | V6 (a : Nat)
  | OtherAddr
deriving DecidableEq, Repr

/-- zettabgp `BgpAttrOrigin`. -/
inductive BgpAttrOrigin
  | Igp
  | Egp
  | Incomplete
deriving DecidableEq, Repr

/-- The multiprotocol-reachable attribute payload (`BgpMPUpdates`). -/
structure BgpMPUpdates where
  nexthop : BgpAddr
  addrs : BgpAddrs
deriving DecidableEq, Repr

/-- The multiprotocol-unreachable attribute payload (`BgpMPWithdraws`). -/
structure BgpMPWithdraws where
  addrs : BgpAddrs
deriving DecidableEq, Repr

/-- The `BgpAttrItem` variants read by `insert_bgp_update`; every other
attribute is `OtherAttr`. -/
inductive BgpAttrItem
  | MPUpdates (u : BgpMPUpdates)
  | MPWithdraws (w : BgpMPWithdraws)
  | NextHop (value : IpAddr)
  | CommunityList (value : List Nat)
  | MED (value : Nat)
  | LocalPref (value : Nat)
  | Origin (value : BgpAttrOrigin)
  | ASPath (value : List Nat)
  | LargeCommunityList (value : List (Nat × Nat × Nat))
  | OtherAttr
deriving DecidableEq, Repr

/-- A decoded BGP UPDATE (zettabgp `BgpUpdateMessage`): attribute list plus
legacy update/withdraw NLRI lists. -/
structure BgpUpdateMessage where
  attrs : List BgpAttrItem
  updates : BgpAddrs
  withdraws : BgpAddrs
deriving DecidableEq, Repr

/-- `bgpv4addr_to_ipnet` (`src/store.rs` lines 372-377): `Ipv4Net::new`
fails exactly when the mask length exceeds 32; the failing entry is logged
and dropped. -/
def bgpv4addr_to_ipnet (a : BgpAddrV4) : Option IpNet :=
  if a.pfxlen ≤ 32 then some (.v4 a.addr a.pfxlen) else none

/-- `bgpv6addr_to_ipnet` (`src/store.rs` lines 379-384). -/
def bgpv6addr_to_ipnet (a : BgpAddrV6) : Option IpNet :=
  if a.pfxlen ≤ 128 then some (.v6 a.addr a.pfxlen) else none

/-- `bgp_addrs_to_nets` (`src/store.rs` lines 323-370): convert an address
family's NLRI list to `(route_distinguisher, path_id, net)` entries,
skipping individually malformed entries; unknown address families contribute
nothing. -/
def bgp_addrs_to_nets : BgpAddrs → List (RouteDistinguisher × PathId × IpNet)
  | .IPV4UP l => l.filterMap (fun a =>
      (bgpv4addr_to_ipnet a.nlri).map (fun net => (.Default, a.pathid, net)))
  | .IPV6UP l => l.filterMap (fun a =>
      (bgpv6addr_to_ipnet a.nlri).map (fun net => (.Default, a.pathid, net)))
  | .IPV4U l => l.filterMap (fun a =>
      (bgpv4addr_to_ipnet a).map (fun net => (.Default, 0, net)))
  | .IPV6U l => l.filterMap (fun a =>
      (bgpv6addr_to_ipnet a).map (fun net => (.Default, 0, net)))
  | .VPNV4U l => l.filterMap (fun lab =>
      match tryFromBgpRD lab.rd with
      | .error _ => none
      | .ok rd => (bgpv4addr_to_ipnet lab.pfx).map (fun net => (rd, 0, net)))
  | .VPNV6U l => l.filterMap (fun lab =>
      match tryFromBgpRD lab.rd with
      | .error _ => none
      | .ok rd => (bgpv6addr_to_ipnet lab.pfx).map (fun net => (rd, 0, net)))
  | .UnknownFamily => []

/-- Accumulator of the attribute walk of `insert_bgp_update`
(`src/store.rs` lines 218-281). -/
structure CollectState where
  attrs : RouteAttrs
  nexthop : Option IpAddr
  update_nets : List ((RouteDistinguisher × PathId × IpNet) × Option IpAddr)
  withdraw_nets : List (RouteDistinguisher × PathId × IpNet)
deriving DecidableEq, Repr

/-- One step of the attribute walk of `insert_bgp_update`, translated arm
for arm from the `match attr` of `src/store.rs` lines 222-280. -/
def collectStep (st : CollectState) (item : BgpAttrItem) : CollectState :=
  match item with
  | .MPUpdates u =>
    let nh : Option IpAddr := match u.nexthop with
      | .V4 a => some (.v4 a)
      | .V6 a => some (.v6 a)
      | .OtherAddr => none
    { st with update_nets := st.update_nets ++
        (bgp_addrs_to_nets u.addrs).map (fun n => (n, nh)) }
  | .MPWithdraws w =>
    { st with withdraw_nets := st.withdraw_nets ++ bgp_addrs_to_nets w.addrs }
  | .NextHop v => { st with nexthop := some v }
  | .CommunityList v =>
    { st with attrs := { st.attrs with
        communities := some (v.map (fun c => (c / 2 ^ 16 % 2 ^ 16, c % 2 ^ 16))) } }
  | .MED v => { st with attrs := { st.attrs with med := some v } }
  | .LocalPref v => { st with attrs := { st.attrs with local_pref := some v } }
  | .Origin v =>
    { st with attrs := { st.attrs with origin := some (match v with
        | .Igp => RouteOrigin.Igp
        | .Egp => RouteOrigin.Egp
        | .Incomplete => RouteOrigin.Incomplete) } }
  | .ASPath v => { st with attrs := { st.attrs with as_path := some v } }
  | .LargeCommunityList v =>
    { st with attrs := { st.attrs with large_communities := some v } }
  | .OtherAttr => st

/-- The route-distinguisher substitution of `insert_bgp_update`
(`src/store.rs` lines 289-292 and 306-308): a default sentinel is replaced
by the table's own distinguisher, an explicit one is used unchanged. -/
def substRd (session : TableSelector) (rd : RouteDistinguisher) :
    RouteDistinguisher :=
  if rd.is_default then session.route_distinguisher else rd

/-- `Store::insert_bgp_update` (`src/store.rs` lines 212-320): walk the
attributes, append the legacy NLRI lists with the accumulated next-hop, then
apply every update and withdrawal against the store with the substituted
route distinguisher and per-event next-hop. -/
def insert_bgp_update (s : InMemoryStore) (session : TableSelector)
    (m : BgpUpdateMessage) : InMemoryStore :=
  let st := m.attrs.foldl collectStep
    { attrs := {}, nexthop := none, update_nets := [], withdraw_nets := [] }
  let update_nets := st.update_nets ++
    (bgp_addrs_to_nets m.updates).map (fun n => (n, st.nexthop))
  let withdraw_nets := st.withdraw_nets ++ bgp_addrs_to_nets m.withdraws
  let s1 := update_nets.foldl
    (fun acc ev =>
      update_route acc ev.1.2.1 ev.1.2.2
        { session with route_distinguisher := substRd session ev.1.1 }
        { st.attrs with nexthop := ev.2 })
    s
  withdraw_nets.foldl
    (fun acc ev =>
      withdraw_route acc ev.2.1 ev.2.2
        { session with route_distinguisher := substRd session ev.1 })
    s1

/-! ## Concrete instances used by the claim witnesses -/

/-- A first example client (router id 42). -/
def exClient : Client := ⟨['r', '1'], 42⟩

/-- A second example client (router id 43). -/
def exClient2 : Client := ⟨['r', '2'], 43⟩

/-- A session of the first client. -/
def exSid1 : SessionId := ⟨1, .v4 10⟩

/-- A session of the second client. -/
def exSid2 : SessionId := ⟨2, .v4 11⟩

/-- A pre-policy table of the first client in the default instance. -/
def exSel1 : TableSelector := ⟨.Default, exSid1, .PrePolicyAdjIn⟩

/-- A pre-policy table of the second client in the default instance. -/
def exSel2 : TableSelector := ⟨.Default, exSid2, .PrePolicyAdjIn⟩

/-- An example IPv4 /24 network. -/
def exNet : IpNet := .v4 3221225984 24

/-- Example attributes carrying an AS path. -/
def exAttrs : RouteAttrs := { as_path := some [65001, 65002] }

/-- Example attributes with no AS path at all. -/
def exAttrsNoPath : RouteAttrs := {}

/-- An example store with two clients, two sessions and two tables; the
first table holds one route with an AS path and one without. -/
def exStore : InMemoryStore :=
  { clients := [(1, exClient), (2, exClient2)]
    sessions := [(exSid1, ⟨⟩), (exSid2, ⟨⟩)]
    tables := [(exSel1, { entries := [((0, exNet), exAttrs),
                  ((1, exNet), exAttrsNoPath)] }), (exSel2, .empty)]
    caches := [exAttrs] }

/-- A compile function whose regexes match everything. -/
def exCompileTrue : RegexCompile := fun _ => some (fun _ => true)

/-- A compile function that always fails (an invalid regex). -/
def exCompileFail : RegexCompile := fun _ => none

/-- An exact-match query against the first client's table, no regex. -/
def exQueryTable : Query :=
  { table_query := some (.Table exSel1)
    net_query := .Exact exNet
    limits := none
    as_path_regex := none
    route_distinguisher := .Default }

/-- The query result produced by the example store for the routed entry of
the first table. -/
def exResult : QueryResult :=
  { state := .Seen
    net := exNet
    table := exSel1
    client := exClient
    session := some ⟨⟩
    attrs := exAttrs }

/-! ## Lemmas about the digit and address renderings -/

theorem digitVal?_digitChar {d : Nat} (h : d < 10) : digitVal? (digitChar d) = some d := by
  interval_cases d <;> decide

theorem digitChar_ne_zero {d : Nat} (h0 : 0 < d) (h : d < 10) : digitChar d ≠ '0' := by
  interval_cases d <;> decide

theorem natToDigitsRev_eq (n : Nat) (h : n ≠ 0) :
    natToDigitsRev n = digitChar (n % 10) :: natToDigitsRev (n / 10) := by
  cases n with
  | zero => exact absurd rfl h
  | succ m => rw [natToDigitsRev]

/-- Structure of the reversed digit list of a nonzero number: nonempty, the
leading character is a nonzero digit, and every character is a digit. -/
theorem natToDigitsRev_reverse_spec :
    ∀ n, n ≠ 0 → ∃ c cs, (natToDigitsRev n).reverse = c :: cs ∧ c ≠ '0' ∧
      ∀ x ∈ c :: cs, ∃ d, d < 10 ∧ x = digitChar d := by
  intro n
  induction n using Nat.strong_induction_on with
  | _ n ih =>
    intro hn
    rw [natToDigitsRev_eq n hn, List.reverse_cons]
    by_cases hq : n / 10 = 0
    · have hlt : n < 10 := by omega
      have hmod : n % 10 = n := Nat.mod_eq_of_lt hlt
      rw [hq]
      refine ⟨digitChar (n % 10), [], by simp [natToDigitsRev], ?_, ?_⟩
      · exact digitChar_ne_zero (by omega) (by omega)
      · intro x hx
        simp only [List.mem_singleton] at hx
        exact ⟨n % 10, by omega, hx⟩
    · obtain ⟨c, cs, heq, hc0, hdig⟩ := ih (n / 10) (Nat.div_lt_self (by omega) (by omega)) hq
      refine ⟨c, cs ++ [digitChar (n % 10)], by rw [heq]; rfl, hc0, ?_⟩
      intro x hx
      rcases List.mem_cons.mp hx with h | h
      · exact hdig x (by simp [h])
      · rcases List.mem_append.mp h with h | h
        · exact hdig x (by simp [h])
        · simp only [List.mem_singleton] at h
          exact ⟨n % 10, by omega, h⟩

theorem natRepr_spec (n : Nat) :
    ∃ c cs, natRepr n = c :: cs ∧ (n ≠ 0 → c ≠ '0') ∧
      ∀ x ∈ c :: cs, ∃ d, d < 10 ∧ x = digitChar d := by
  by_cases h : n = 0
  · exact ⟨'0', [], by simp [natRepr, h], fun hn => absurd h hn, by
      intro x hx; simp only [List.mem_singleton] at hx; exact ⟨0, by omega, hx⟩⟩
  · obtain ⟨c, cs, heq, hc0, hdig⟩ := natToDigitsRev_reverse_spec n h
    exact ⟨c, cs, by rw [natRepr, if_neg h, heq], fun _ => hc0, hdig⟩

theorem mem_natRepr_digit {c : Char} {n : Nat} (h : c ∈ natRepr n) :
    ∃ d, d < 10 ∧ c = digitChar d := by
  obtain ⟨c0, cs, heq, _, hdig⟩ := natRepr_spec n
  exact hdig c (heq ▸ h)

theorem digitChar_safe {d : Nat} (h : d < 10) :
    digitChar d ≠ '.' ∧ digitChar d ≠ ':' ∧ digitChar d ≠ '+' := by
  interval_cases d <;> decide

theorem dot_not_mem_natRepr (n : Nat) : '.' ∉ natRepr n := by
  intro h
  obtain ⟨d, hd, hc⟩ := mem_natRepr_digit h
  exact (digitChar_safe hd).1 hc.symm

theorem colon_not_mem_natRepr (n : Nat) : ':' ∉ natRepr n := by
  intro h
  obtain ⟨d, hd, hc⟩ := mem_natRepr_digit h
  exact (digitChar_safe hd).2.1 hc.symm

theorem parseDigitsAux_append (xs ys : List Char) (acc : Nat) :
    parseDigitsAux (xs ++ ys) acc =
      (parseDigitsAux xs acc).bind (fun m => parseDigitsAux ys m) := by
  induction xs generalizing acc with
  | nil => rfl
  | cons c cs ih =>
    simp only [List.cons_append, parseDigitsAux]
    cases h : digitVal? c with
    | none => rfl
    | some d => exact ih _

theorem parseDigitsAux_natToDigitsRev :
    ∀ n, n ≠ 0 → ∀ acc,
      parseDigitsAux (natToDigitsRev n).reverse acc =
        some (acc * 10 ^ (natToDigitsRev n).length + n) := by
  intro n
  induction n using Nat.strong_induction_on with
  | _ n ih =>
    intro hn acc
    rw [natToDigitsRev_eq n hn, List.reverse_cons, List.length_cons]
    by_cases hq : n / 10 = 0
    · have hlt : n < 10 := by omega
      rw [hq]
      simp only [natToDigitsRev, List.reverse_nil, List.nil_append, List.length_nil,
        parseDigitsAux, digitVal?_digitChar (Nat.mod_lt n (by omega))]
      have : n % 10 = n := Nat.mod_eq_of_lt hlt
      simp [this]
    · rw [parseDigitsAux_append, ih (n / 10) (Nat.div_lt_self (by omega) (by omega)) hq acc]
      simp only [Option.some_bind, parseDigitsAux, digitVal?_digitChar (Nat.mod_lt n (by omega))]
      congr 1
      have hpow : 10 ^ ((natToDigitsRev (n / 10)).length + 1) =
          10 ^ (natToDigitsRev (n / 10)).length * 10 := pow_succ 10 _
      rw [hpow, ← mul_assoc]
      set B := acc * 10 ^ (natToDigitsRev (n / 10)).length
      omega

theorem parseDigitsAux_natRepr (n : Nat) : parseDigitsAux (natRepr n) 0 = some n := by
  by_cases h : n = 0
  · subst h; decide
  · rw [natRepr, if_neg h, parseDigitsAux_natToDigitsRev n h 0, Nat.zero_mul, Nat.zero_add]

theorem parseNatDigits_natRepr (n : Nat) : parseNatDigits (natRepr n) = some n := by
  obtain ⟨c, cs, heq, -, -⟩ := natRepr_spec n
  rw [parseNatDigits, if_neg (by rw [heq]; simp), parseDigitsAux_natRepr]

theorem parseU32_natRepr {n : Nat} (h : n < 2 ^ 32) : parseU32 (natRepr n) = some n := by
  obtain ⟨c, cs, heq, -, hdig⟩ := natRepr_spec n
  obtain ⟨d, hd, hc⟩ := hdig c (List.mem_cons_self c cs)
  have hplus : c ≠ '+' := hc ▸ (digitChar_safe hd).2.2
  have hhead : ¬ (natRepr n).head? = some '+' := by
    rw [heq]; simp [hplus]
  rw [parseU32, if_neg hhead, parseNatDigits_natRepr]
  show (if n < 2 ^ 32 then some n else none) = some n
  rw [if_pos h]

theorem parseDigitsAux_digits {cs : List Char} {acc n : Nat}
    (h : parseDigitsAux cs acc = some n) : ∀ c ∈ cs, (digitVal? c).isSome := by
  induction cs generalizing acc with
  | nil => intro c hc; cases hc
  | cons x xs ih =>
    intro c hc
    simp only [parseDigitsAux] at h
    cases hx : digitVal? x with
    | none => rw [hx] at h; cases h
    | some d =>
      rw [hx] at h
      rcases List.mem_cons.mp hc with rfl | hmem
      · simp [hx]
      · exact ih h c hmem

theorem parseDigitsAux_none_of_dot {cs : List Char} {acc : Nat} (h : '.' ∈ cs) :
    parseDigitsAux cs acc = none := by
  cases hp : parseDigitsAux cs acc with
  | none => rfl
  | some n =>
    have := parseDigitsAux_digits hp '.' h
    simp [digitVal?] at this

theorem splitOnce_append {sep : Char} {xs : List Char} (ys : List Char)
    (h : sep ∉ xs) : splitOnce sep (xs ++ sep :: ys) = some (xs, ys) := by
  induction xs with
  | nil => simp [splitOnce]
  | cons c cs ih =>
    have hc : c ≠ sep := fun hc => h (hc ▸ List.mem_cons_self c cs)
    rw [List.cons_append, splitOnce, if_neg hc,
      ih (fun hm => h (List.mem_cons_of_mem c hm))]
    rfl

theorem splitChar_not_mem {sep : Char} {xs : List Char} (h : sep ∉ xs) :
    splitChar sep xs = [xs] := by
  induction xs with
  | nil => rfl
  | cons c cs ih =>
    have hc : c ≠ sep := fun hc => h (hc ▸ List.mem_cons_self c cs)
    rw [splitChar, if_neg hc, ih (fun hm => h (List.mem_cons_of_mem c hm))]

theorem splitChar_append {sep : Char} {xs : List Char} (ys : List Char)
    (h : sep ∉ xs) : splitChar sep (xs ++ sep :: ys) = xs :: splitChar sep ys := by
  induction xs with
  | nil => simp [splitChar]
  | cons c cs ih =>
    have hc : c ≠ sep := fun hc => h (hc ▸ List.mem_cons_self c cs)
    rw [List.cons_append, splitChar, if_neg hc,
      ih (fun hm => h (List.mem_cons_of_mem c hm))]

theorem parseOctet_natRepr {a : Nat} (h : a ≤ 255) : parseOctet (natRepr a) = some a := by
  by_cases h0 : a = 0
  · subst h0; decide
  · obtain ⟨c, cs, heq, hc0, -⟩ := natRepr_spec a
    have hcz : c ≠ '0' := hc0 h0
    rw [parseOctet,
      if_neg (by rw [heq]; intro hh; injection hh with h1 _; exact hcz h1),
      if_neg (by rw [heq]; simp [hcz]), parseNatDigits_natRepr]
    simp [boundOctet, h]

theorem parseIpv4_ipRepr {ip : Nat} (h : ip < 2 ^ 32) : parseIpv4 (ipRepr ip) = some ip := by
  have h1 : ip / 2 ^ 24 ≤ 255 := by omega
  have h2 : ip / 2 ^ 16 % 256 ≤ 255 := by omega
  have h3 : ip / 2 ^ 8 % 256 ≤ 255 := by omega
  have h4 : ip % 256 ≤ 255 := by omega
  have hsplit : splitChar '.' (ipRepr ip) =
      [natRepr (ip / 2 ^ 24), natRepr (ip / 2 ^ 16 % 256),
        natRepr (ip / 2 ^ 8 % 256), natRepr (ip % 256)] := by
    rw [ipRepr, splitChar_append _ (dot_not_mem_natRepr _),
      splitChar_append _ (dot_not_mem_natRepr _),
      splitChar_append _ (dot_not_mem_natRepr _),
      splitChar_not_mem (dot_not_mem_natRepr _)]
  rw [parseIpv4.eq_def, hsplit]
  show parseIpv4Quad _ _ _ _ = some ip
  rw [parseIpv4Quad, parseOctet_natRepr h1, parseOctet_natRepr h2, parseOctet_natRepr h3,
    parseOctet_natRepr h4]
  simp only [Option.some_bind, Option.map_some']
  congr 1
  omega

theorem dot_mem_ipRepr (ip : Nat) : '.' ∈ ipRepr ip := by
  rw [ipRepr]
  exact List.mem_append.mpr (Or.inr (List.mem_cons_self _ _))

theorem colon_not_mem_ipRepr (ip : Nat) : ':' ∉ ipRepr ip := by
  intro h
  rw [ipRepr] at h
  rcases List.mem_append.mp h with h | h
  · exact colon_not_mem_natRepr _ h
  · rcases List.mem_cons.mp h with h | h
    · cases h
    · rcases List.mem_append.mp h with h | h
      · exact colon_not_mem_natRepr _ h
      · rcases List.mem_cons.mp h with h | h
        · cases h
        · rcases List.mem_append.mp h with h | h
          · exact colon_not_mem_natRepr _ h
          · rcases List.mem_cons.mp h with h | h
            · cases h
            · exact colon_not_mem_natRepr _ h

theorem parseU32_none_of_dot {cs : List Char} (h : '.' ∈ cs) : parseU32 cs = none := by
  rw [parseU32]
  have hds : '.' ∈ (if cs.head? = some '+' then cs.tail else cs) := by
    split
    · rename_i hp
      cases cs with
      | nil => cases h
      | cons c t =>
        simp only [List.head?_cons, Option.some.injEq] at hp
        subst hp
        simp only [List.tail_cons]
        rcases List.mem_cons.mp h with h0 | h0
        · exact absurd h0 (by decide)
        · exact h0
    · exact h
  generalize (if cs.head? = some '+' then cs.tail else cs) = ds at hds
  rw [parseNatDigits]
  have hne : ¬ ds.isEmpty = true := by
    cases ds with
    | nil => cases hds
    | cons c t => simp
  rw [if_neg hne, parseDigitsAux_none_of_dot hds]
  rfl

theorem parseU32_ipRepr (ip : Nat) : parseU32 (ipRepr ip) = none :=
  parseU32_none_of_dot (dot_mem_ipRepr ip)

theorem parseIpv4_none_of_parseU32 {k : List Char} {n : Nat}
    (h : parseU32 k = some n) : parseIpv4 k = none := by
  have hnodot : '.' ∉ k := by
    intro hdot
    rw [parseU32_none_of_dot hdot] at h
    cases h
  rw [parseIpv4.eq_def, splitChar_not_mem hnodot]

/-! ## Lemmas about association-list maps -/

theorem alookup_cons [DecidableEq α] (x : α × β) (l : List (α × β)) (k : α) :
    alookup (x :: l) k = if x.1 = k then some x.2 else alookup l k := by
  rw [alookup, List.find?]
  by_cases h : x.1 = k
  · simp [h]
  · simp [h, alookup]

theorem alookup_filter_none [DecidableEq α] {l : List (α × β)} {p : α × β → Bool}
    {k : α} (h : ∀ v, p (k, v) = false) : alookup (l.filter p) k = none := by
  induction l with
  | nil => rfl
  | cons x xs ih =>
    rw [List.filter_cons]
    by_cases hp : p x = true
    · rw [if_pos hp, alookup_cons]
      have hk : ¬ x.1 = k := by
        intro hk
        have := h x.2
        rw [← hk] at this
        rw [this] at hp
        cases hp
      rw [if_neg hk]
      exact ih
    · rw [if_neg hp]
      exact ih

theorem alookup_filter_eq [DecidableEq α] {l : List (α × β)} {p : α × β → Bool}
    {k : α} (h : ∀ v, p (k, v) = true) : alookup (l.filter p) k = alookup l k := by
  induction l with
  | nil => rfl
  | cons x xs ih =>
    rw [List.filter_cons, alookup_cons]
    by_cases hk : x.1 = k
    · have hp : p x = true := by
        have := h x.2
        rw [← hk] at this
        exact this
      rw [if_pos hp, alookup_cons, if_pos hk, if_pos hk]
    · by_cases hp : p x = true
      · rw [if_pos hp, alookup_cons, if_neg hk, if_neg hk]
        exact ih
      · rw [if_neg hp, if_neg hk]
        exact ih

theorem alookup_aremove_self [DecidableEq α] (l : List (α × β)) (k : α) :
    alookup (aremove l k) k = none :=
  alookup_filter_none (fun v => by simp)

theorem alookup_aremove_ne [DecidableEq α] (l : List (α × β)) {k k' : α}
    (h : k' ≠ k) : alookup (aremove l k) k' = alookup l k' :=
  alookup_filter_eq (fun v => by simp [h])

theorem alookup_ainsert_self [DecidableEq α] (l : List (α × β)) (k : α) (v : β) :
    alookup (ainsert l k v) k = some v := by
  rw [ainsert, alookup_cons, if_pos rfl]

theorem alookup_ainsert_ne [DecidableEq α] (l : List (α × β)) {k k' : α} (v : β)
    (h : k' ≠ k) : alookup (ainsert l k v) k' = alookup l k' := by
  rw [ainsert, alookup_cons, if_neg (fun hk => h hk.symm), alookup_aremove_ne l h]

/-! ## Lemmas about `get_routing_instances` -/

theorem instStep_preserves (hm : List (SocketAddr × List RouteDistinguisher))
    (sel : TableSelector) (a : SocketAddr) (rd : RouteDistinguisher)
    (h : ∃ l, alookup hm a = some l ∧ rd ∈ l) :
    ∃ l, alookup (instStep hm sel) a = some l ∧ rd ∈ l := by
  obtain ⟨l, hl, hrd⟩ := h
  rw [instStep]
  by_cases ha : a = sel.session_id.from_client
  · subst ha
    rw [hl]
    simp only [Option.getD_some]
    refine ⟨_, alookup_ainsert_self _ _ _, ?_⟩
    split_ifs
    · exact hrd
    · exact List.mem_cons_of_mem _ hrd
  · exact ⟨l, by rw [alookup_ainsert_ne _ _ ha]; exact hl, hrd⟩

theorem instStep_establish (hm : List (SocketAddr × List RouteDistinguisher))
    (sel : TableSelector) :
    ∃ l, alookup (instStep hm sel) sel.session_id.from_client = some l ∧
      sel.route_distinguisher ∈ l := by
  rw [instStep]
  refine ⟨_, alookup_ainsert_self _ _ _, ?_⟩
  split_ifs with h
  · exact h
  · exact List.mem_cons_self _ _

theorem foldl_instStep_preserves
    (tabs : List (TableSelector × InMemoryTable))
    (hm : List (SocketAddr × List RouteDistinguisher)) (a : SocketAddr)
    (rd : RouteDistinguisher) (h : ∃ l, alookup hm a = some l ∧ rd ∈ l) :
    ∃ l, alookup (tabs.foldl (fun acc kv => instStep acc kv.1) hm) a = some l ∧
      rd ∈ l := by
  induction tabs generalizing hm with
  | nil => exact h
  | cons kv rest ih => exact ih _ (instStep_preserves hm kv.1 a rd h)

theorem foldl_instStep_mem (tabs : List (TableSelector × InMemoryTable))
    (hm : List (SocketAddr × List RouteDistinguisher)) (sel : TableSelector)
    (t : InMemoryTable) (h : (sel, t) ∈ tabs) :
    ∃ l, alookup (tabs.foldl (fun acc kv => instStep acc kv.1) hm)
        sel.session_id.from_client = some l ∧ sel.route_distinguisher ∈ l := by
  induction tabs generalizing hm with
  | nil => cases h
  | cons kv rest ih =>
    rcases List.mem_cons.mp h with heq | hmem
    · rw [List.foldl_cons]
      have hkv : kv.1 = sel := by rw [← heq]
      rw [hkv]
      exact foldl_instStep_preserves rest _ _ _ (instStep_establish hm sel)
    · exact ih _ hmem

theorem get_routing_instances_mem_of_table {s : InMemoryStore}
    {sel : TableSelector} {t : InMemoryTable} (h : (sel, t) ∈ s.tables) :
    ∃ l, alookup (get_routing_instances s) sel.session_id.from_client = some l ∧
      sel.route_distinguisher ∈ l := by
  rw [get_routing_instances]
  exact foldl_instStep_mem _ _ _ _ h

/-! ## Claims C6, C7, C8: the route-distinguisher codec -/

/-- Claim C6: for every wire pair `(high, low)` of 32-bit words, decoding
yields `Default` exactly when both are zero; otherwise the tag is the top 16
bits of `high`, tag 0 yields `Type0` with the low 16 bits of `high` and
`low`, tag 1 yields `Type1` with the stated bit concatenations, tag 2 yields
`Type2` likewise, and any other tag yields an error carrying that tag. -/
theorem rd_wire_decode_matches_spec (r : BgpRD) (hh : r.rdh < 2 ^ 32)
    (hl : r.rdl < 2 ^ 32) : tryFromBgpRD r = rdDecodeSpec r := by
  rw [tryFromBgpRD, rdDecodeSpec]
  by_cases h0 : r.rdh = 0 ∧ r.rdl = 0
  · rw [if_pos h0, if_pos h0]
  · rw [if_neg h0, if_neg h0]
    have htag : r.rdh / 2 ^ 24 % 256 * 256 + r.rdh / 2 ^ 16 % 256 = r.rdh / 2 ^ 16 := by
      omega
    rw [htag]
    have hasn : r.rdh / 2 ^ 8 % 256 * 256 + r.rdh % 256 = r.rdh % 2 ^ 16 := by omega
    have hip : (r.rdh / 2 ^ 8 % 256 * 256 + r.rdh % 256) * 256 + r.rdl / 2 ^ 24 % 256 =
        r.rdh % 2 ^ 16 * 256 + r.rdl / 2 ^ 24 := by omega
    have hval : r.rdl / 2 ^ 8 % 256 * 256 + r.rdl % 256 = r.rdl % 2 ^ 16 := by omega
    generalize r.rdh / 2 ^ 16 = tag
    rcases tag with _ | _ | _ | e
    · simp only [Except.ok.injEq, RouteDistinguisher.Type0.injEq]
      exact ⟨by omega, trivial⟩
    · simp only [Except.ok.injEq, RouteDistinguisher.Type1.injEq]
      exact ⟨by omega, by omega⟩
    · simp only [Except.ok.injEq, RouteDistinguisher.Type2.injEq]
      exact ⟨by omega, by omega⟩
    · rfl

/-- Witness for claim C6 at the concrete Type1 wire pair
`(0x00010a00, 0x00ff5678)` from the repository's tests. -/
theorem rd_wire_decode_matches_spec_witness :
    (65538 * 256 : Nat) < 2 ^ 32 ∧ (16733816 : Nat) < 2 ^ 32 ∧
      tryFromBgpRD ⟨65538 * 256, 16733816⟩ = rdDecodeSpec ⟨65538 * 256, 16733816⟩ :=
  ⟨by decide, by decide, rd_wire_decode_matches_spec _ (by decide) (by decide)⟩

/-- Claim C7: the text parser follows exactly the spec's ordered selection
rule (`"0:0"` then integral `Type2`, integral `Type0`, IPv4 `Type1`, else a
fixed format error). -/
theorem rd_from_str_matches_selection_rule (s : List Char) :
    fromStr s = specSelectionRule s := by
  rw [fromStr, specSelectionRule]
  by_cases h00 : s = ['0', ':', '0']
  · rw [if_pos h00, if_pos h00]
  · rw [if_neg h00, if_neg h00]
    split
    · rfl
    · split
      · rfl
      · split
        · rename_i k vs v asn hk
          split_ifs with h1 h2 hin
          · rfl
          · rfl
          · rw [parseIpv4_none_of_parseU32 hk]
          · rw [parseIpv4_none_of_parseU32 hk]
        · rfl

/-- Claim C8: parsing the canonical text form of any well-formed route
distinguisher succeeds, and re-rendering reproduces the same text. -/
theorem rd_text_roundtrip (rd : RouteDistinguisher) (h : rd.wf) :
    ∃ rd', fromStr (toText rd) = .ok rd' ∧ toText rd' = toText rd := by
  cases rd with
  | Default => exact ⟨.Default, rfl, rfl⟩
  | Type0 asn value =>
    obtain ⟨ha, hv⟩ := h
    by_cases h00 : toText (.Type0 asn value) = ['0', ':', '0']
    · exact ⟨.Default, by rw [fromStr, if_pos h00], by rw [h00]; rfl⟩
    · refine ⟨.Type0 asn value, ?_, rfl⟩
      rw [fromStr, if_neg h00, toText,
        splitOnce_append _ (colon_not_mem_natRepr asn)]
      simp only []
      rw [parseU32_natRepr hv, parseU32_natRepr (by omega : asn < 2 ^ 32)]
      simp only []
      rw [if_neg (fun hc => absurd hc.1 (by omega)), if_pos (by omega : asn ≤ 65535)]
  | Type1 ip value =>
    obtain ⟨hip, hv⟩ := h
    have h00 : toText (.Type1 ip value) ≠ ['0', ':', '0'] := by
      intro hh
      have hd : '.' ∈ toText (.Type1 ip value) := by
        rw [toText]
        exact List.mem_append.mpr (Or.inl (dot_mem_ipRepr ip))
      rw [hh] at hd
      exact absurd hd (by decide)
    refine ⟨.Type1 ip value, ?_, rfl⟩
    rw [fromStr, if_neg h00, toText,
      splitOnce_append _ (colon_not_mem_ipRepr ip)]
    simp only []
    rw [parseU32_natRepr (by omega : value < 2 ^ 32), parseU32_ipRepr,
      parseIpv4_ipRepr hip]
    simp only []
    rw [if_pos (by omega : value ≤ 65535)]
  | Type2 asn value =>
    obtain ⟨ha, hv⟩ := h
    by_cases h00 : toText (.Type2 asn value) = ['0', ':', '0']
    · exact ⟨.Default, by rw [fromStr, if_pos h00], by rw [h00]; rfl⟩
    · by_cases hbig : 65535 < asn
      · refine ⟨.Type2 asn value, ?_, rfl⟩
        rw [fromStr, if_neg h00, toText,
          splitOnce_append _ (colon_not_mem_natRepr asn)]
        simp only []
        rw [parseU32_natRepr (by omega : value < 2 ^ 32), parseU32_natRepr ha]
        simp only []
        rw [if_pos ⟨hbig, by omega⟩]
      · refine ⟨.Type0 asn value, ?_, by rw [toText, toText]⟩
        rw [fromStr, if_neg h00, toText,
          splitOnce_append _ (colon_not_mem_natRepr asn)]
        simp only []
        rw [parseU32_natRepr (by omega : value < 2 ^ 32), parseU32_natRepr ha]
        simp only []
        rw [if_neg (fun hc => absurd hc.1 (by omega)), if_pos (by omega : asn ≤ 65535)]

/-- Witness for claim C8 at the concrete Type1 distinguisher `10.0.0.1:5678`. -/
theorem rd_text_roundtrip_witness :
    RouteDistinguisher.wf (.Type1 167772161 5678) ∧
      ∃ rd', fromStr (toText (.Type1 167772161 5678)) = .ok rd' ∧
        toText rd' = toText (.Type1 167772161 5678) :=
  ⟨by decide, rd_text_roundtrip _ (by decide)⟩

/-! ## Claim C3: per-entry skipping of malformed NLRI -/

/-- Claim C3: converting an address family's NLRI list skips exactly the
malformed entries.  An entry with an invalid mask length (or a VPN entry
whose route-distinguisher wire tag is unknown) is dropped while the entries
around it are still converted; conversion of a prefix fails exactly on an
out-of-range mask length; an unknown address family contributes no entries
and causes no error. -/
theorem bgp_addrs_to_nets_skips_malformed
    (l1 l2 : List BgpAddrV4) (bad : BgpAddrV4)
    (vl1 vl2 : List (WithRd BgpAddrV4)) (w : BgpRD) (p : BgpAddrV4) (e : Nat)
    (hbad : 32 < bad.pfxlen) (hw : tryFromBgpRD w = .error e) :
    bgp_addrs_to_nets (.IPV4U (l1 ++ bad :: l2)) =
        bgp_addrs_to_nets (.IPV4U l1) ++ bgp_addrs_to_nets (.IPV4U l2) ∧
    bgp_addrs_to_nets (.VPNV4U (vl1 ++ ⟨w, p⟩ :: vl2)) =
        bgp_addrs_to_nets (.VPNV4U vl1) ++ bgp_addrs_to_nets (.VPNV4U vl2) ∧
    (∀ (l : List BgpAddrV4) (x : RouteDistinguisher × PathId × IpNet),
      x ∈ bgp_addrs_to_nets (.IPV4U l) ↔
        ∃ a ∈ l, ∃ net, bgpv4addr_to_ipnet a = some net ∧
          x = (.Default, 0, net)) ∧
    (∀ (vl : List (WithRd BgpAddrV4)) (x : RouteDistinguisher × PathId × IpNet),
      x ∈ bgp_addrs_to_nets (.VPNV4U vl) ↔
        ∃ lab ∈ vl, ∃ rd net, tryFromBgpRD lab.rd = .ok rd ∧
          bgpv4addr_to_ipnet lab.pfx = some net ∧ x = (rd, 0, net)) ∧
    (∀ a : BgpAddrV4, bgpv4addr_to_ipnet a = none ↔ 32 < a.pfxlen) ∧
    (∀ a : BgpAddrV6, bgpv6addr_to_ipnet a = none ↔ 128 < a.pfxlen) ∧
    bgp_addrs_to_nets .UnknownFamily = [] := by
  have hnone : bgpv4addr_to_ipnet bad = none := by
    rw [bgpv4addr_to_ipnet, if_neg (by omega)]
  refine ⟨?_, ?_, ?_, ?_, ?_, ?_, rfl⟩
  · rw [bgp_addrs_to_nets, List.filterMap_append, List.filterMap_cons, hnone]
    rfl
  · rw [bgp_addrs_to_nets, List.filterMap_append, List.filterMap_cons]
    simp only [hw]
    rfl
  · intro l x
    rw [bgp_addrs_to_nets, List.mem_filterMap]
    constructor
    · rintro ⟨a, ha, hx⟩
      rcases hmap : bgpv4addr_to_ipnet a with - | net
      · rw [hmap] at hx; cases hx
      · rw [hmap] at hx
        injection hx with hx
        exact ⟨a, ha, net, hmap, hx.symm⟩
    · rintro ⟨a, ha, net, hmap, rfl⟩
      exact ⟨a, ha, by rw [hmap]; rfl⟩
  · intro vl x
    rw [bgp_addrs_to_nets, List.mem_filterMap]
    constructor
    · rintro ⟨lab, hlab, hx⟩
      rcases hrd : tryFromBgpRD lab.rd with er | rd
      · rw [hrd] at hx; cases hx
      · rw [hrd] at hx
        rcases hmap : bgpv4addr_to_ipnet lab.pfx with - | net
        · rw [hmap] at hx; cases hx
        · rw [hmap] at hx
          injection hx with hx
          exact ⟨lab, hlab, rd, net, hrd, hmap, hx.symm⟩
    · rintro ⟨lab, hlab, rd, net, hrd, hmap, rfl⟩
      exact ⟨lab, hlab, by rw [hrd, hmap]; rfl⟩
  · intro a
    rw [bgpv4addr_to_ipnet]
    constructor
    · intro h
      by_contra hc
      rw [if_pos (by omega)] at h
      cases h
    · intro h
      rw [if_neg (by omega)]
  · intro a
    rw [bgpv6addr_to_ipnet]
    constructor
    · intro h
      by_contra hc
      rw [if_pos (by omega)] at h
      cases h
    · intro h
      rw [if_neg (by omega)]

/-- Witness for claim C3: a mask length of 33 is dropped from the middle of
a legacy list, and wire tag 9 is dropped from a VPN list. -/
theorem bgp_addrs_to_nets_skips_malformed_witness :
    (32 : Nat) < 33 ∧ tryFromBgpRD ⟨9 * 2 ^ 16, 0⟩ = .error 9 ∧
      bgp_addrs_to_nets (.IPV4U ([⟨1, 8⟩] ++ ⟨2, 33⟩ :: [⟨3, 24⟩])) =
        bgp_addrs_to_nets (.IPV4U [⟨1, 8⟩]) ++ bgp_addrs_to_nets (.IPV4U [⟨3, 24⟩]) :=
  ⟨by decide, by rfl,
    (bgp_addrs_to_nets_skips_malformed [⟨1, 8⟩] [⟨3, 24⟩] ⟨2, 33⟩ [] [] ⟨9 * 2 ^ 16, 0⟩
      ⟨0, 0⟩ 9 (by decide) (by rfl)).1⟩

/-! ## Claim C1: route-distinguisher substitution in `insert_bgp_update` -/

theorem alookup_update_route_self (s : InMemoryStore) (pid : PathId)
    (net : IpNet) (sel : TableSelector) (attrs : RouteAttrs) :
    alookup (update_route s pid net sel attrs).tables sel =
      some (tbl_update (get_table s sel).2 pid net attrs) := by
  simp only [update_route]
  exact alookup_ainsert_self _ _ _

theorem alookup_withdraw_route_self (s : InMemoryStore) (pid : PathId)
    (net : IpNet) (sel : TableSelector) :
    alookup (withdraw_route s pid net sel).tables sel =
      some (tbl_withdraw (get_table s sel).2 pid net) := by
  simp only [withdraw_route]
  exact alookup_ainsert_self _ _ _

theorem mem_tbl_update_self (t : InMemoryTable) (pid : PathId) (net : IpNet)
    (attrs : RouteAttrs) :
    ((pid, net), attrs) ∈ (tbl_update t pid net attrs).entries :=
  List.mem_cons_self _ _

theorem not_mem_tbl_withdraw (t : InMemoryTable) (pid : PathId) (net : IpNet)
    (attrs : RouteAttrs) :
    ((pid, net), attrs) ∉ (tbl_withdraw t pid net).entries := by
  intro h
  have := (List.mem_filter.mp h).2
  simp at this

/-- Claim C1: every per-prefix event collected by `insert_bgp_update` from a
non-VPN address family carries the `Default` sentinel, for which the table's
own route-distinguisher is substituted before the store call; an event from
a VPN family carries its decoded distinguisher, used unchanged when it is
not the sentinel — in particular wire `100:1` decodes to `Type0 100 1` and
the resulting update/withdrawal targets the `Type0 100 1` table regardless
of the session's own distinguisher. -/
theorem insert_bgp_update_rd_substitution (s : InMemoryStore)
    (session : TableSelector) (a : BgpAddrV4) (net : IpNet)
    (ha : bgpv4addr_to_ipnet a = some net) :
    (∀ (l : List BgpAddrV4) (x : RouteDistinguisher × PathId × IpNet),
      x ∈ bgp_addrs_to_nets (.IPV4U l) → x.1 = .Default) ∧
    (∀ (l : List (WithPathId BgpAddrV4)) (x : RouteDistinguisher × PathId × IpNet),
      x ∈ bgp_addrs_to_nets (.IPV4UP l) → x.1 = .Default) ∧
    (∀ (l : List BgpAddrV6) (x : RouteDistinguisher × PathId × IpNet),
      x ∈ bgp_addrs_to_nets (.IPV6U l) → x.1 = .Default) ∧
    (∀ (l : List (WithPathId BgpAddrV6)) (x : RouteDistinguisher × PathId × IpNet),
      x ∈ bgp_addrs_to_nets (.IPV6UP l) → x.1 = .Default) ∧
    (∀ rd : RouteDistinguisher, rd.is_default = false → substRd session rd = rd) ∧
    substRd session .Default = session.route_distinguisher ∧
    (∃ t, alookup (insert_bgp_update s session
          ⟨[], .IPV4U [a], .IPV4U []⟩).tables session = some t ∧
        ((0, net), ({ nexthop := none } : RouteAttrs)) ∈ t.entries) ∧
    tryFromBgpRD ⟨100, 1⟩ = .ok (.Type0 100 1) ∧
    (∃ t, alookup (insert_bgp_update s session
          ⟨[.MPUpdates ⟨.OtherAddr, .VPNV4U [⟨⟨100, 1⟩, a⟩]⟩],
            .IPV4U [], .IPV4U []⟩).tables
        { session with route_distinguisher := .Type0 100 1 } = some t ∧
        ((0, net), ({ nexthop := none } : RouteAttrs)) ∈ t.entries) ∧
    (∃ t, alookup (insert_bgp_update s session
          ⟨[.MPWithdraws ⟨.VPNV4U [⟨⟨100, 1⟩, a⟩]⟩],
            .IPV4U [], .IPV4U []⟩).tables
        { session with route_distinguisher := .Type0 100 1 } = some t ∧
        ∀ attrs : RouteAttrs, ((0, net), attrs) ∉ t.entries) := by
  have hrd100 : tryFromBgpRD ⟨100, 1⟩ = .ok (.Type0 100 1) := by rfl
  have hnets : bgp_addrs_to_nets (.IPV4U [a]) = [(.Default, 0, net)] := by
    simp [bgp_addrs_to_nets, ha]
  have hvpn : bgp_addrs_to_nets (.VPNV4U [⟨⟨100, 1⟩, a⟩]) =
      [(.Type0 100 1, 0, net)] := by
    rw [bgp_addrs_to_nets, List.filterMap_cons]
    simp only [hrd100, ha, Option.map_some', List.filterMap_nil]
  have hempty4 : bgp_addrs_to_nets (.IPV4U []) = [] := rfl
  refine ⟨?_, ?_, ?_, ?_, ?_, rfl, ?_, hrd100, ?_, ?_⟩
  · intro l x hx
    rw [bgp_addrs_to_nets] at hx
    obtain ⟨b, -, hb⟩ := List.mem_filterMap.mp hx
    rcases hf : bgpv4addr_to_ipnet b with - | n
    · rw [hf] at hb; cases hb
    · rw [hf, Option.map_some'] at hb
      injection hb with hb
      rw [← hb]
  · intro l x hx
    rw [bgp_addrs_to_nets] at hx
    obtain ⟨b, -, hb⟩ := List.mem_filterMap.mp hx
    rcases hf : bgpv4addr_to_ipnet b.nlri with - | n
    · rw [hf] at hb; cases hb
    · rw [hf, Option.map_some'] at hb
      injection hb with hb
      rw [← hb]
  · intro l x hx
    rw [bgp_addrs_to_nets] at hx
    obtain ⟨b, -, hb⟩ := List.mem_filterMap.mp hx
    rcases hf : bgpv6addr_to_ipnet b with - | n
    · rw [hf] at hb; cases hb
    · rw [hf, Option.map_some'] at hb
      injection hb with hb
      rw [← hb]
  · intro l x hx
    rw [bgp_addrs_to_nets] at hx
    obtain ⟨b, -, hb⟩ := List.mem_filterMap.mp hx
    rcases hf : bgpv6addr_to_ipnet b.nlri with - | n
    · rw [hf] at hb; cases hb
    · rw [hf, Option.map_some'] at hb
      injection hb with hb
      rw [← hb]
  · intro rd hrd
    rw [substRd, hrd]
    rfl
  · simp only [insert_bgp_update, List.foldl_nil, hnets, List.map_cons, List.map_nil,
      List.nil_append, List.append_nil, List.foldl_cons]
    have hsub : substRd session .Default = session.route_distinguisher := rfl
    rw [hsub]
    have heta : { session with route_distinguisher := session.route_distinguisher } =
        session := rfl
    rw [heta]
    exact ⟨_, alookup_update_route_self _ _ _ _ _, mem_tbl_update_self _ _ _ _⟩
  · simp only [insert_bgp_update, List.foldl_cons, List.foldl_nil, collectStep, hvpn,
      hempty4, List.map_cons, List.map_nil, List.nil_append, List.append_nil]
    have hsub : substRd session (.Type0 100 1) = .Type0 100 1 := rfl
    rw [hsub]
    exact ⟨_, alookup_update_route_self _ _ _ _ _, mem_tbl_update_self _ _ _ _⟩
  · simp only [insert_bgp_update, List.foldl_cons, List.foldl_nil, collectStep, hvpn,
      hempty4, List.map_cons, List.map_nil, List.nil_append, List.append_nil]
    have hsub : substRd session (.Type0 100 1) = .Type0 100 1 := rfl
    rw [hsub]
    exact ⟨_, alookup_withdraw_route_self _ _ _ _,
      fun attrs => not_mem_tbl_withdraw _ _ _ attrs⟩

/-- Witness for claim C1 at a concrete prefix and a session whose own
distinguisher is `Type1`, so the VPN case visibly overrides it. -/
theorem insert_bgp_update_rd_substitution_witness :
    bgpv4addr_to_ipnet ⟨3221225472, 24⟩ = some (.v4 3221225472 24) ∧
      (∃ t, alookup (insert_bgp_update InMemoryStore.empty
            ⟨.Type1 42 7, ⟨1, .v4 10⟩, .PrePolicyAdjIn⟩
            ⟨[.MPUpdates ⟨.OtherAddr, .VPNV4U [⟨⟨100, 1⟩, ⟨3221225472, 24⟩⟩]⟩],
              .IPV4U [], .IPV4U []⟩).tables
          { route_distinguisher := .Type0 100 1
            session_id := ⟨1, .v4 10⟩
            table_type := .PrePolicyAdjIn } = some t ∧
        ((0, .v4 3221225472 24), ({ nexthop := none } : RouteAttrs)) ∈ t.entries) :=
  ⟨by rfl,
    ((insert_bgp_update_rd_substitution InMemoryStore.empty
      ⟨.Type1 42 7, ⟨1, .v4 10⟩, .PrePolicyAdjIn⟩ ⟨3221225472, 24⟩
      (.v4 3221225472 24) (by rfl)).2.2.2.2.2.2.2.2.1)⟩

/-! ## Claim C2: `client_down` teardown -/

theorem tbl_get_routes_empty (nq : Option NetQuery) :
    tbl_get_routes InMemoryTable.empty nq = [] := by
  rcases nq with - | q
  · rfl
  · cases q <;> rfl

/-- Claim C2: after `client_down addr`, the client registry no longer
contains `addr` (so `get_routers` excludes it), every session from that
client is removed, every table keyed to that client is removed (so a query
against any such table returns no results), cache reclamation runs against
the surviving tables, and entries of other clients are untouched. -/
theorem client_down_teardown (s : InMemoryStore) (addr a' : SocketAddr)
    (sid sid' : SessionId) (sel sel' : TableSelector) (q : Query)
    (compile : RegexCompile)
    (ha : a' ≠ addr) (hsid : sid.from_client = addr)
    (hsid' : sid'.from_client ≠ addr) (hsel : sel.client_addr = addr)
    (hsel' : sel'.client_addr ≠ addr)
    (hq : q.table_query = some (.Table sel))
    (hf : (mkFilterFn compile q.as_path_regex).isSome = true) :
    alookup (client_down s addr).clients addr = none ∧
    alookup (client_down s addr).clients a' = alookup s.clients a' ∧
    alookup (get_routers (client_down s addr)) addr = none ∧
    alookup (client_down s addr).sessions sid = none ∧
    alookup (client_down s addr).sessions sid' = alookup s.sessions sid' ∧
    alookup (client_down s addr).tables sel = none ∧
    alookup (client_down s addr).tables sel' = alookup s.tables sel' ∧
    (client_down s addr).caches =
      removeExpired (client_down s addr).tables s.caches ∧
    (∃ s', get_routes compile (client_down s addr) q = some ([], s')) := by
  have hclients : alookup (client_down s addr).clients addr = none :=
    alookup_aremove_self s.clients addr
  have htables : alookup (client_down s addr).tables sel = none :=
    alookup_filter_none (fun v => by simp [hsel])
  refine ⟨hclients, alookup_aremove_ne s.clients ha, hclients,
    alookup_filter_none (fun v => by simp [hsid]),
    alookup_filter_eq (fun v => by simp [hsid']),
    htables,
    alookup_filter_eq (fun v => by simp [hsel']),
    rfl, ?_⟩
  obtain ⟨fFn, hfFn⟩ := Option.isSome_iff_exists.mp hf
  rw [get_routes, hq]
  simp only [candidateTables, get_table, htables, hfFn]
  by_cases hrd : sel.route_distinguisher = q.route_distinguisher
  · simp only [List.filter_cons, List.filter_nil, hrd, decide_True, if_true,
      List.flatMap_cons, List.flatMap_nil, tbl_get_routes_empty, List.map_nil,
      List.take_nil, List.append_nil, List.filterMap_nil]
    exact ⟨_, rfl⟩
  · simp only [List.filter_cons, List.filter_nil, decide_eq_true_eq, if_neg hrd,
      List.flatMap_nil, List.take_nil, List.filterMap_nil]
    exact ⟨_, rfl⟩

/-- Witness for claim C2: tearing down client `1` of the two-client example
store. -/
theorem client_down_teardown_witness :
    alookup (client_down exStore 1).clients 1 = none ∧
    alookup (client_down exStore 1).clients 2 = alookup exStore.clients 2 ∧
    alookup (get_routers (client_down exStore 1)) 1 = none ∧
    alookup (client_down exStore 1).sessions exSid1 = none ∧
    alookup (client_down exStore 1).sessions exSid2 =
      alookup exStore.sessions exSid2 ∧
    alookup (client_down exStore 1).tables exSel1 = none ∧
    alookup (client_down exStore 1).tables exSel2 = alookup exStore.tables exSel2 ∧
    (client_down exStore 1).caches =
      removeExpired (client_down exStore 1).tables exStore.caches ∧
    (∃ s', get_routes exCompileFail (client_down exStore 1) exQueryTable =
      some ([], s')) :=
  client_down_teardown exStore 1 2 exSid1 exSid2 exSel1 exSel2 exQueryTable
    exCompileFail (by decide) (by decide) (by decide) (by decide) (by decide)
    (by rfl) (by rfl)

/-! ## Claim C9: an explicit Table query inserts an empty table -/

/-- Claim C9: `get_routes` with an explicit `Table` query for a selector
that has no table inserts a fresh empty table for it as a side effect:
afterwards the selector is bound (to the empty table) in the store's table
map and its client/route-distinguisher pair appears in
`get_routing_instances`, even though no route was ever inserted. -/
theorem get_routes_table_query_inserts_empty_table
    (s : InMemoryStore) (q : Query) (sel : TableSelector)
    (compile : RegexCompile)
    (hq : q.table_query = some (.Table sel))
    (habs : alookup s.tables sel = none)
    (hf : (mkFilterFn compile q.as_path_regex).isSome = true) :
    ∃ res s', get_routes compile s q = some (res, s') ∧
      alookup s'.tables sel = some InMemoryTable.empty ∧
      ∃ rds, alookup (get_routing_instances s') sel.session_id.from_client =
          some rds ∧ sel.route_distinguisher ∈ rds := by
  obtain ⟨fFn, hfFn⟩ := Option.isSome_iff_exists.mp hf
  rw [get_routes, hq]
  simp only [candidateTables, get_table, habs, hfFn]
  refine ⟨_, _, rfl, alookup_ainsert_self _ _ _, ?_⟩
  refine get_routing_instances_mem_of_table (t := InMemoryTable.empty) ?_
  show (sel, InMemoryTable.empty) ∈ ainsert s.tables sel InMemoryTable.empty
  rw [ainsert]
  exact List.mem_cons_self _ _

/-- Witness for claim C9: querying a selector absent from the example store
creates its (empty) table and registers its routing instance. -/
theorem get_routes_table_query_inserts_empty_table_witness :
    ∃ res s', get_routes exCompileTrue exStore
        { table_query := some (.Table ⟨.Type0 9 9, exSid1, .PostPolicyAdjIn⟩)
          net_query := .Exact exNet
          limits := none
          as_path_regex := none
          route_distinguisher := .Type0 9 9 } = some (res, s') ∧
      alookup s'.tables ⟨.Type0 9 9, exSid1, .PostPolicyAdjIn⟩ =
        some InMemoryTable.empty ∧
      ∃ rds, alookup (get_routing_instances s') 1 = some rds ∧
        (.Type0 9 9 : RouteDistinguisher) ∈ rds :=
  get_routes_table_query_inserts_empty_table exStore _
    ⟨.Type0 9 9, exSid1, .PostPolicyAdjIn⟩ exCompileTrue rfl (by decide) (by rfl)

/-! ## Claim C4: invalid regular expressions -/

/-- Claim C4 (evidence of the code bug): when `as_path_regex` is present and
its compilation fails, `get_routes` panics — the source calls
`Regex::new(&as_path_regex).unwrap()`, marked `FIXME error handling` —
instead of surfacing a query rejection to the caller. -/
theorem get_routes_invalid_regex_panics (s : InMemoryStore) (q : Query)
    (compile : RegexCompile) (str : List Char)
    (hq : q.as_path_regex = some str) (hc : compile str = none) :
    get_routes compile s q = none := by
  have hfn : mkFilterFn compile q.as_path_regex = none := by
    simp [mkFilterFn, hq, hc]
  rw [get_routes]
  cases hcand : candidateTables s q.table_query with
  | none => rfl
  | some p =>
    obtain ⟨s1, cands0⟩ := p
    simp [hfn]

/-- Witness for claim C4: an uncompilable regex `"("` makes the query panic
on the example store. -/
theorem get_routes_invalid_regex_panics_witness :
    get_routes exCompileFail exStore
      { exQueryTable with as_path_regex := some ['('] } = none :=
  get_routes_invalid_regex_panics exStore _ exCompileFail ['('] rfl rfl

/-! ## Claim C5: a table entry whose owning client vanished -/

/-- Claim C5 (evidence of the code bug): in the candidate-selection phase of
a `Router` table-query, `tables_for_router_fn` calls
`clients.get(..).unwrap()` on every table, so one table whose owning client
is absent panics the whole query (first conjunct) — whereas the enrichment
phase does drop a missing-client item and the same `Router` query succeeds
when every table's client is present (remaining conjuncts). -/
theorem get_routes_router_query_missing_client_panics :
    get_routes exCompileTrue
      { exStore with tables := (⟨.Default, ⟨3, .v4 12⟩, .PrePolicyAdjIn⟩,
          InMemoryTable.empty) :: exStore.tables }
      { table_query := some (.Router 42)
        net_query := .Exact exNet
        limits := none
        as_path_regex := none
        route_distinguisher := .Default } = none ∧
    enrich exStore (⟨.Default, ⟨3, .v4 12⟩, .PrePolicyAdjIn⟩, exNet, exAttrs) =
      none ∧
    (get_routes exCompileTrue exStore
      { table_query := some (.Router 42)
        net_query := .Exact exNet
        limits := none
        as_path_regex := none
        route_distinguisher := .Default }).map (fun p => p.1.length) = some 2 :=
  ⟨by decide, by decide, by decide⟩

/-! ## Claim C10: AS-path regex filtering -/

theorem tbl_get_routes_length_le (t : InMemoryTable) (nq : Option NetQuery) :
    (tbl_get_routes t nq).length ≤ t.entries.length := by
  rw [tbl_get_routes.eq_def]
  cases nq with
  | none => rw [List.length_map]
  | some q =>
    rw [List.length_map]
    cases q with
    | Contains n => exact List.length_filter_le _ _
    | Exact n => exact List.length_filter_le _ _
    | OrLonger n => exact List.length_filter_le _ _
    | MostSpecific n =>
      simp only [tbl_select]
      exact le_trans (List.length_filter_le _ _) (List.length_filter_le _ _)

/-- Claim C10: with `as_path_regex` present, (i) every result of
`get_routes` comes from a route that has an AS path and whose space-joined
decimal rendering matches the compiled regex — so a route without an AS path
is excluded even if the regex matches the empty string; and (ii) under a
single-table query with unbounded limits and the owning client present,
every scanned route with a matching AS path does appear in the results. -/
theorem as_path_regex_filter (compile : RegexCompile) (s : InMemoryStore)
    (q : Query) (str : List Char) (res : List QueryResult)
    (s' : InMemoryStore) (r : QueryResult) (sel : TableSelector)
    (t : InMemoryTable) (cl : Client) (pid : PathId) (net : IpNet)
    (attrs : RouteAttrs) (p : List Nat) (f : List Char → Bool) :
    (q.as_path_regex = some str → get_routes compile s q = some (res, s') →
      r ∈ res → ∃ p', r.attrs.as_path = some p' ∧
        ∃ f', compile str = some f' ∧ f' (joinAsPath p') = true) ∧
    (q.as_path_regex = some str → compile str = some f →
      get_routes compile s q = some (res, s') →
      q.table_query = some (.Table sel) → alookup s.tables sel = some t →
      sel.route_distinguisher = q.route_distinguisher →
      q.limits = some ⟨0, 0⟩ → t.entries.length < usizeMax →
      alookup s.clients sel.client_addr = some cl →
      (net, pid, attrs) ∈ tbl_get_routes t (some q.net_query) →
      attrs.as_path = some p → f (joinAsPath p) = true →
      ({ state := sel.route_state
         net := net
         table := sel
         client := cl
         session := sel.session_id_opt.bind (fun sid => alookup s.sessions sid)
         attrs := attrs } : QueryResult) ∈ res) := by
  constructor
  · intro hq hget hr
    rw [get_routes] at hget
    cases hcand : candidateTables s q.table_query with
    | none => rw [hcand] at hget; cases hget
    | some pr =>
      obtain ⟨s1, cands0⟩ := pr
      cases hcomp : compile str with
      | none =>
        have hfn : mkFilterFn compile q.as_path_regex = none := by
          simp [mkFilterFn, hq, hcomp]
        simp only [hcand, hfn] at hget
        cases hget
      | some m =>
        have hfn : mkFilterFn compile q.as_path_regex =
            some (fun item => true &&
              (match item.2.2.as_path with
               | some p' => m (joinAsPath p')
               | none => false)) := by
          simp [mkFilterFn, hq, hcomp]
        simp only [hcand, hfn] at hget
        injection hget with hget
        have hres : res = (((cands0.filter (fun kv =>
            decide (kv.1.route_distinguisher = q.route_distinguisher))).flatMap
              (fun kv => ((((tbl_get_routes kv.2 (some q.net_query)).map
                  (fun e => (kv.1, e.1, e.2.2))).filter
                    (fun item => true &&
                      (match item.2.2.as_path with
                       | some p' => m (joinAsPath p')
                       | none => false))).take
                  (if (q.limits.getD QueryLimits.default).max_results_per_table = 0
                   then usizeMax
                   else (q.limits.getD QueryLimits.default).max_results_per_table)))).filterMap
                (enrich s1)).take
              (if (q.limits.getD QueryLimits.default).max_results = 0 then usizeMax
               else (q.limits.getD QueryLimits.default).max_results) := by
          have := congrArg Prod.fst hget
          exact this.symm
        rw [hres] at hr
        obtain ⟨item, hitem, henr⟩ :=
          List.mem_filterMap.mp (List.mem_of_mem_take hr)
        obtain ⟨kv, -, hitem2⟩ := List.mem_flatMap.mp hitem
        have hfilt := (List.mem_filter.mp (List.mem_of_mem_take hitem2)).2
        rw [Bool.true_and] at hfilt
        rcases hpath : item.2.2.as_path with - | p'
        · rw [hpath] at hfilt
          cases hfilt
        · rw [hpath] at hfilt
          refine ⟨p', ?_, m, rfl, hfilt⟩
          rw [enrich] at henr
          cases hcl2 : alookup s1.clients item.1.client_addr with
          | none => rw [hcl2] at henr; cases henr
          | some cl2 =>
            rw [hcl2] at henr
            injection henr with henr
            rw [← henr]
            exact hpath
  · intro hq hcomp hget hqt hsel hrd hlim hlen hcl hscan hpath hmatch
    have hcands : candidateTables s q.table_query = some (s, [(sel, t)]) := by
      rw [hqt]
      simp [candidateTables, get_table, hsel]
    have hfn : mkFilterFn compile q.as_path_regex =
        some (fun item => true &&
          (match item.2.2.as_path with
           | some p' => f (joinAsPath p')
           | none => false)) := by
      simp [mkFilterFn, hq, hcomp]
    rw [get_routes] at hget
    simp only [hcands, hfn, hlim, Option.getD_some, List.filter_cons,
      List.filter_nil, hrd, decide_True, if_true, if_pos rfl,
      List.flatMap_cons, List.flatMap_nil, List.append_nil] at hget
    set F : ScanItem → Bool := fun item => true &&
      (match item.2.2.as_path with
       | some p' => f (joinAsPath p')
       | none => false) with hF
    have hscanlen : (((tbl_get_routes t (some q.net_query)).map
        (fun e => (sel, e.1, e.2.2))).filter F).length ≤ t.entries.length := by
      refine le_trans (List.length_filter_le _ _) ?_
      rw [List.length_map]
      exact tbl_get_routes_length_le t _
    have hin : (((tbl_get_routes t (some q.net_query)).map
        (fun e => (sel, e.1, e.2.2))).filter F).take usizeMax =
          ((tbl_get_routes t (some q.net_query)).map
            (fun e => (sel, e.1, e.2.2))).filter F :=
      List.take_of_length_le (by omega)
    rw [hin] at hget
    have hreslen : ((((tbl_get_routes t (some q.net_query)).map
        (fun e => (sel, e.1, e.2.2))).filter F).filterMap (enrich s)).length ≤
          t.entries.length :=
      le_trans (List.length_filterMap_le _ _) hscanlen
    rw [List.take_of_length_le (by omega)] at hget
    injection hget with hget
    have hres := congrArg Prod.fst hget
    simp only [] at hres
    rw [← hres]
    refine List.mem_filterMap.mpr ⟨(sel, net, attrs), ?_, ?_⟩
    · refine List.mem_filter.mpr ⟨?_, ?_⟩
      · exact List.mem_map.mpr ⟨(net, pid, attrs), hscan, rfl⟩
      · rw [hF]
        simp only [Bool.true_and, hpath]
        exact hmatch
    · rw [enrich]
      simp only [hcl]

/-- Witness for claim C10 on the example store: the route carrying AS path
`65001 65002` is kept by a match-everything regex and is the sole result —
the co-resident route with no AS path is excluded. -/
theorem as_path_regex_filter_witness :
    (∃ p', exResult.attrs.as_path = some p' ∧
      ∃ f', exCompileTrue ['x'] = some f' ∧ f' (joinAsPath p') = true) ∧
    ({ state := exSel1.route_state
       net := exNet
       table := exSel1
       client := exClient
       session := exSel1.session_id_opt.bind
         (fun sid => alookup exStore.sessions sid)
       attrs := exAttrs } : QueryResult) ∈ [exResult] :=
  ⟨(as_path_regex_filter exCompileTrue exStore
      { table_query := some (.Table exSel1)
        net_query := .Exact exNet
        limits := some ⟨0, 0⟩
        as_path_regex := some ['x']
        route_distinguisher := .Default } ['x'] [exResult] exStore exResult
      exSel1 { entries := [((0, exNet), exAttrs), ((1, exNet), exAttrsNoPath)] }
      exClient 0 exNet exAttrs [65001, 65002] (fun _ => true)).1
      rfl (by decide) (by decide),
    (as_path_regex_filter exCompileTrue exStore
      { table_query := some (.Table exSel1)
        net_query := .Exact exNet
        limits := some ⟨0, 0⟩
        as_path_regex := some ['x']
        route_distinguisher := .Default } ['x'] [exResult] exStore exResult
      exSel1 { entries := [((0, exNet), exAttrs), ((1, exNet), exAttrsNoPath)] }
      exClient 0 exNet exAttrs [65001, 65002] (fun _ => true)).2
      rfl rfl (by decide) rfl (by decide) rfl rfl (by decide) (by decide)
      (by decide) rfl rfl⟩

end Fernglas
